import Mathlib

/-!
Shallow embedding of the fixie-batch job lifecycle engine
(src/fixie_batch/environ.py and src/fixie_batch/simulations.py) and of the
runner script SPAWN_XSH that simulations.py renders for each job.

Modelling conventions, used throughout:

* Python scalar values inspected by the control-plane operations are
  modelled by `JVal`; values that may also be lists or dicts (simulation
  payloads, record fields) are modelled by `PyTop`.  No claim inspects a
  payload below one nesting level, so lists and dicts hold scalars.
* A job record (the untyped JSON job document) is an association list
  from field names to values, with Python dict semantics for lookup and
  assignment (`lookupKey`, `setKey`).
* Wall-clock readings from time.time() (Python floats) are modelled as
  integer ticks; distinct successive readings inside one operation are
  collapsed to a single tick value.
* Directory states are modelled at two granularities: `idsOfNames` keeps
  the raw filename layer (for the generated status_ids functions), while
  the operation-level states (`QFS`, `CancelFS`) key directory entries by
  the integer job id, i.e. they sit above the filename-parsing layer.
-/

inductive JVal where
  | jnull
  | jbool (b : Bool)
  | jint (n : Int)
  | jstr (s : String)
deriving DecidableEq

inductive PyTop where
  | atom (v : JVal)
  | list (xs : List JVal)
  | dict (fields : List (String × JVal))
deriving DecidableEq

/-- Job records are Python dicts from field names to values; modelled as
association lists with first-match lookup. -/
abbrev Jrec := List (String × PyTop)

/-- Python dict read access: the value stored at key k, if any. -/
def lookupKey (r : Jrec) (k : String) : Option PyTop :=
  match r with
  | [] => none
  | (k2, v) :: rest => if k2 = k then some v else lookupKey rest k

/-- Python dict assignment r[k] = v: replace the binding of k if present,
otherwise add one. -/
def setKey (r : Jrec) (k : String) (v : PyTop) : Jrec :=
  match r with
  | [] => [(k, v)]
  | (k2, v2) :: rest => if k2 = k then (k2, v) :: rest else (k2, v2) :: setKey rest k v

theorem lookupKey_setKey_self (r : Jrec) (k : String) (v : PyTop) :
    lookupKey (setKey r k v) k = some v := by
  induction r with
  | nil => simp [setKey, lookupKey]
  | cons hd tl ih =>
    obtain ⟨k2, v2⟩ := hd
    by_cases h : k2 = k
    · simp [setKey, lookupKey, h]
    · simp [setKey, lookupKey, h, ih]

theorem lookupKey_setKey_other (r : Jrec) (k k2 : String) (v : PyTop) (h : k2 ≠ k) :
    lookupKey (setKey r k v) k2 = lookupKey r k2 := by
  have h2 : ¬ k = k2 := fun hh => h hh.symm
  induction r with
  | nil => simp [setKey, lookupKey, h2]
  | cons hd tl ih =>
    obtain ⟨k3, v3⟩ := hd
    by_cases h3 : k3 = k
    · subst h3
      simp [setKey, lookupKey, h2]
    · by_cases h4 : k3 = k2 <;> simp [setKey, lookupKey, h3, h4, ih, h]

/-- A single apostrophe character, used when rendering Python repr of
strings inside error messages. -/
def quoteStr : String := String.singleton (Char.ofNat 39)

/-- Python repr of a string: the text between apostrophes (escaping of
special characters inside the text is not modelled; no message proved
about here contains any). -/
def pyReprStr (s : String) : String := quoteStr ++ s ++ quoteStr

/-- Python str/repr of a scalar value, as interpolated into error
messages by simulations.py. -/
def pyReprV : JVal → String
  | .jnull => "None"
  | .jbool b => if b then "True" else "False"
  | .jint n => toString n
  | .jstr s => pyReprStr s

/-! ### Filename enumeration (environ.py QUEUE_STATUSES, simulations.py
STATUS_IDS / the generated status_ids functions, SPAWN_XSH queued_ids) -/

/-- Decimal digit run to its value. -/
def digitsVal (cs : List Char) : Nat :=
  cs.foldl (fun a c => 10 * a + (c.toNat - 48)) 0

/-- Nonempty all-digit run, or failure. -/
def digitRun (cs : List Char) : Option Nat :=
  if cs = [] then none
  else if cs.all Char.isDigit then some (digitsVal cs) else none

/-- Whitespace characters that Python int() strips from both ends. -/
def isPySpace (c : Char) : Bool :=
  c = ' ' ∨ c = Char.ofNat 9 ∨ c = Char.ofNat 10 ∨ c = Char.ofNat 13 ∨
    c = Char.ofNat 11 ∨ c = Char.ofNat 12

/-- Both-ends whitespace strip on a character sequence. -/
def pyStrip (cs : List Char) : List Char :=
  ((cs.dropWhile isPySpace).reverse.dropWhile isPySpace).reverse

/-- Python int(s) applied to a string: surrounding whitespace is
stripped, then an optional sign precedes a nonempty digit run; anything
else raises ValueError, modelled as none.  (PEP-515 underscore grouping
is accepted by Python but not modelled; no filename in this system
contains one.) -/
def pyInt (s : String) : Option Int :=
  match pyStrip s.data with
  | '+' :: rest => (digitRun rest).map Int.ofNat
  | '-' :: rest => (digitRun rest).map (fun n => -(n : Int))
  | cs => (digitRun cs).map Int.ofNat

/-- Python name[:-5], as applied to a directory entry to strip the
".json" suffix (the code strips the last five characters
unconditionally; on shorter names the result is empty). -/
def stripJson (name : String) : String :=
  String.mk (name.data.take (name.data.length - 5))

/-- Embedding of the per-entry computation int(j.name[:-5]) of the
generated status_ids functions (simulations.py lines 193-201) and of
queued_ids in SPAWN_XSH (lines 26-30). -/
def parseEntry (name : String) : Option Int := pyInt (stripJson name)

/-- Per-entry traversal of the directory listing: every entry must
parse, otherwise the whole enumeration fails. -/
def parseAll : List String → Option (List Int)
  | [] => some []
  | name :: rest =>
    match parseEntry name, parseAll rest with
    | some k, some ks => some (k :: ks)
    | _, _ => none

/-- Embedding of a generated status_ids function: the set comprehension
over the directory listing; a ValueError from int() aborts the whole
enumeration, modelled as none.  (os.scandir order only affects which
entry raises first, never the returned set.) -/
def idsOfNames (names : List String) : Option (Finset Int) :=
  (parseAll names).map List.toFinset

/-! ### Status normalisation (environ.py line 11, simulations.py
convert routine at lines 295-311) -/

/-- QUEUE_STATUSES exactly as environ.py line 11 defines it:
frozenset of completed, canceled and running.  The iteration order of a
frozenset is unspecified; wherever the code iterates it we fix the list
below and note why the result does not depend on the order. -/
def QUEUE_STATUSES_LIST : List String := ["completed", "canceled", "running"]

def QUEUE_STATUSES : Finset String := QUEUE_STATUSES_LIST.toFinset

/-- The five-status set named by the specification (section 3, Status
directories); kept only to compare against the code's QUEUE_STATUSES. -/
def SPEC_STATUSES : Finset String :=
  (["queued", "running", "completed", "failed", "canceled"] : List String).toFinset

/-- Argument shape of the statuses parameter as the /query schema admits
it: a bare string or a collection of values. -/
inductive StatusesArg where
  | str (s : String)
  | coll (xs : List JVal)
deriving DecidableEq

/-- Loop body of the convert routine over the already-normalised element
sequence: left fold carrying the accumulated set, with early return on
the first offending element. -/
def convertLoop : List JVal → Finset String → Option (Finset String) × String
  | [], acc => (some acc, "")
  | v :: rest, acc =>
    if v = .jstr "all" then convertLoop rest (acc ∪ QUEUE_STATUSES)
    else
      match v with
      | .jstr s =>
        if s ∈ QUEUE_STATUSES then convertLoop rest (insert s acc)
        else (none, s ++ " is not a valid status")
      | _ => (none, "status must be a string, got " ++ pyReprV v)

/-- Embedding of the statuses-normalisation routine (simulations.py
lines 295-311): a bare string becomes a singleton collection, then each
element either expands ("all"), must be a known status, or fails.
A collection is iterated in its given sequence (Python set iteration
order is unspecified; only which error message wins can depend on it). -/
def convert_to_statuses_set : StatusesArg → Option (Finset String) × String
  | .str s => convertLoop [.jstr s] ∅
  | .coll xs => convertLoop xs ∅

/-! ### Admission control (SPAWN_XSH lines 57-76) -/

/-- Embedding of the admission test in the runner's wait loop
(SPAWN_XSH lines 57-72): the runner leaves the loop, and promotes itself
from queued to running, exactly when its own jobid lies in the first
FIXIE_NJOBS entries of the ascending list of ids currently present in the
queued directory. -/
def admitted (jobid : Int) (q : Finset Int) (njobs : Nat) : Bool :=
  decide (jobid ∈ (q.sort (· ≤ ·)).take njobs)

theorem countP_eq_zero_of_forall_lt (a : Int) (t : List Int)
    (ha : ∀ y ∈ t, a < y) : t.countP (fun y => decide (y < a)) = 0 := by
  rw [List.countP_eq_zero]
  intro y hy
  simp only [decide_eq_true_eq]
  exact not_lt_of_gt (ha y hy)

theorem mem_take_iff_of_sorted (l : List Int) (hl : l.Sorted (· < ·)) (x : Int) :
    ∀ n : Nat, x ∈ l.take n ↔ x ∈ l ∧ l.countP (fun y => decide (y < x)) < n := by
  induction l with
  | nil => intro n; simp
  | cons a t ih =>
    have ha : ∀ y ∈ t, a < y := fun y hy => (List.sorted_cons.mp hl).1 y hy
    have ht : t.Sorted (· < ·) := (List.sorted_cons.mp hl).2
    intro n
    match n with
    | 0 => simp
    | Nat.succ m =>
      rw [List.take_succ_cons]
      by_cases hxa : x = a
      · subst hxa
        have h0 : t.countP (fun y => decide (y < x)) = 0 :=
          countP_eq_zero_of_forall_lt x t ha
        simp [List.countP_cons, h0]
      · by_cases hxt : x ∈ t
        · have hax : a < x := ha x hxt
          have := (ih ht) m
          simp [hxa, hxt, this, List.countP_cons, hax, Nat.succ_lt_succ_iff]
        · have h1 : x ∉ List.take m t := fun h => hxt (List.mem_of_mem_take h)
          simp [hxa, hxt, h1]

theorem card_filter_lt_eq_countP_sort (q : Finset Int) (x : Int) :
    (q.filter (fun y => y < x)).card =
      (q.sort (· ≤ ·)).countP (fun y => decide (y < x)) := by
  have h1 : (q.filter (fun y => y < x)).card =
      Multiset.countP (fun y => y < x) q.val := by
    rw [Multiset.countP_eq_card_filter, Finset.card, Finset.filter_val]
  rw [h1, ← Finset.sort_eq (· ≤ ·) q, Multiset.coe_countP]

/-- C7: a runner promotes itself from queued to running only when its id
is among the FIXIE_NJOBS smallest ids in the queued directory, i.e. the
admission test of SPAWN_XSH succeeds exactly when the runner's id is
queued and fewer than FIXIE_NJOBS queued ids are smaller than it; hence
the first job to start running is among the N smallest queued ids. -/
theorem admission_first_n_smallest (jobid : Int) (q : Finset Int) (njobs : Nat) :
    admitted jobid q njobs = true ↔
      jobid ∈ q ∧ (q.filter (fun y => y < jobid)).card < njobs := by
  unfold admitted
  rw [decide_eq_true_iff,
    mem_take_iff_of_sorted (q.sort (· ≤ ·)) (Finset.sort_sorted_lt q) jobid njobs,
    Finset.mem_sort, card_filter_lt_eq_countP_sort]

/-- Concrete instance of the admission characterisation: with
FIXIE_NJOBS = 1 and queued ids 2 and 5, job 2 is admitted and is the
smallest queued id, while job 5 is not admitted. -/
theorem admission_first_n_smallest_witness :
    (admitted 2 ({2, 5} : Finset Int) 1 = true) ∧
      (2 ∈ ({2, 5} : Finset Int) ∧
        (({2, 5} : Finset Int).filter (fun y => y < 2)).card < 1) ∧
      admitted 5 ({2, 5} : Finset Int) 1 = false := by
  refine ⟨(admission_first_n_smallest 2 {2, 5} 1).mpr ⟨by decide, by decide⟩,
    ⟨by decide, by decide⟩, ?_⟩
  have h5 := admission_first_n_smallest 5 ({2, 5} : Finset Int) 1
  cases hb : admitted 5 ({2, 5} : Finset Int) 1 with
  | false => rfl
  | true =>
    have hc := h5.mp hb
    exact absurd hc.2 (by decide)

/-! ### Claims C4 and C1: directory enumeration and status normalisation -/

theorem parseAll_of_all_parse (names : List String)
    (h : ∀ name ∈ names, (parseEntry name).isSome = true) :
    ∃ ks : List Int, parseAll names = some ks ∧
      ∀ k : Int, (k ∈ ks ↔ ∃ name ∈ names, parseEntry name = some k) := by
  induction names with
  | nil => exact ⟨[], rfl, by simp⟩
  | cons a rest ih =>
    obtain ⟨k0, hk0⟩ := Option.isSome_iff_exists.mp (h a (by simp))
    obtain ⟨ks, hks, hmem⟩ := ih (fun name hn => h name (by simp [hn]))
    refine ⟨k0 :: ks, by unfold parseAll; rw [hk0, hks], fun k => ?_⟩
    constructor
    · intro hk
      rcases List.mem_cons.mp hk with hk | hk
      · exact ⟨a, by simp, by rw [hk0, hk]⟩
      · obtain ⟨name, hn1, hn2⟩ := (hmem k).mp hk
        exact ⟨name, by simp [hn1], hn2⟩
    · rintro ⟨name, hn1, hn2⟩
      rcases List.mem_cons.mp hn1 with hn1 | hn1
      · subst hn1
        rw [hk0] at hn2
        exact List.mem_cons.mpr (Or.inl (Option.some_injective _ hn2).symm)
      · exact List.mem_cons.mpr (Or.inr ((hmem k).mpr ⟨name, hn1, hn2⟩))

theorem parseAll_none_of_mem (names : List String) (name : String)
    (h1 : name ∈ names) (h2 : parseEntry name = none) : parseAll names = none := by
  induction names with
  | nil => cases h1
  | cons a rest ih =>
    rcases List.mem_cons.mp h1 with h | h
    · subst h
      simp [parseAll, h2]
    · rcases hpa : parseEntry a with _ | k <;>
        simp [parseAll, hpa, ih h]

/-- C4 counterexample: a status directory holding the files 3.json and
data.json makes the generated enumeration raise ValueError (modelled as
none) instead of ignoring the non-conforming entry and returning the
singleton id set. -/
theorem status_ids_nonconforming_counterexample :
    idsOfNames ["3.json", "data.json"] = none ∧
      idsOfNames ["3.json", "data.json"] ≠ some ({3} : Finset Int) := by
  have h : idsOfNames ["3.json", "data.json"] = none := rfl
  exact ⟨h, by rw [h]; intro hc; cases hc⟩

/-- C4 (amended): the generated status_ids enumeration applies
int(name[:-5]) to every directory entry; when every entry parses it
returns exactly the set of parsed ids, and an entry whose stripped name
does not parse as an integer makes the enumeration fail rather than
being ignored. -/
theorem status_ids_parse_behaviour (names : List String) :
    ((∀ name ∈ names, (parseEntry name).isSome = true) →
      ∃ s : Finset Int, idsOfNames names = some s ∧
        ∀ k : Int, (k ∈ s ↔ ∃ name ∈ names, parseEntry name = some k)) ∧
    (∀ name ∈ names, parseEntry name = none → idsOfNames names = none) := by
  constructor
  · intro h
    obtain ⟨ks, hks, hmem⟩ := parseAll_of_all_parse names h
    refine ⟨ks.toFinset, by simp [idsOfNames, hks], fun k => ?_⟩
    rw [List.mem_toFinset]
    exact hmem k
  · intro name hn h2
    rw [idsOfNames, parseAll_none_of_mem names name hn h2]
    rfl

/-- Concrete instance of the amended C4 enumeration behaviour on a
directory whose two entries both parse. -/
theorem status_ids_parse_behaviour_witness :
    (∀ name ∈ ["3.json", "12.json"], (parseEntry name).isSome = true) ∧
      ∃ s : Finset Int, idsOfNames ["3.json", "12.json"] = some s ∧
        ∀ k : Int, (k ∈ s ↔ ∃ name ∈ ["3.json", "12.json"], parseEntry name = some k) :=
  ⟨by decide, (status_ids_parse_behaviour ["3.json", "12.json"]).1 (by decide)⟩

/-- C1: evaluation of the statuses-normalisation routine at the inputs
the claim covers.  Because environ.py line 11 omits queued and failed
from QUEUE_STATUSES, the names failed and queued are rejected as
invalid statuses and "all" expands to only the three-element set, while
the claim (and the repository's own test_query) requires the
five-element set. -/
theorem convert_statuses_evaluation :
    convert_to_statuses_set (.str "failed") = (none, "failed is not a valid status") ∧
    convert_to_statuses_set (.str "queued") = (none, "queued is not a valid status") ∧
    convert_to_statuses_set (.str "all") = (some QUEUE_STATUSES, "") ∧
    "failed" ∉ QUEUE_STATUSES ∧ "queued" ∉ QUEUE_STATUSES ∧
    QUEUE_STATUSES ≠ SPEC_STATUSES := by
  refine ⟨rfl, rfl, ?_, by decide, by decide, by decide⟩
  show convertLoop [] (∅ ∪ QUEUE_STATUSES) = (some QUEUE_STATUSES, "")
  rw [convertLoop, Finset.empty_union]

/-! ### Query (simulations.py lines 314-434) -/

/-- Python str() of a scalar value, as interpolated by format calls that
use plain interpolation rather than repr. -/
def pyStrV : JVal → String
  | .jnull => "None"
  | .jbool b => if b then "True" else "False"
  | .jint n => toString n
  | .jstr s => s

/-- Python type name of a scalar, used in the unrecognised-job message. -/
def pyTypeName : JVal → String
  | .jnull => "NoneType"
  | .jbool _ => "bool"
  | .jint _ => "int"
  | .jstr _ => "str"

/-- Rendering of type(x) inside a format call. -/
def typeRepr (v : JVal) : String :=
  "<class " ++ pyReprStr (pyTypeName v) ++ ">"

/-- Argument shape of the users/projects parameters per the /query
schema: null, a bare string, or a collection of values. -/
inductive StrsArg where
  | null
  | str (s : String)
  | coll (xs : List JVal)
deriving DecidableEq

/-- Loop of the users/projects normalisation over a collection: every
element must be a string; the first offending element aborts. -/
def ensureLoop : List JVal → Finset String → Option (Finset String) × String
  | [], acc => (some acc, "")
  | .jstr s :: rest, acc => ensureLoop rest (insert s acc)
  | v :: _, _ => (none, pyReprV v ++ " is not a string")

/-- Embedding of the users/projects normalisation (simulations.py lines
314-333): null passes through (meaning no constraint), a bare string
becomes a singleton set, and a collection must contain only strings.
The set branch and the generic-iterable branch of the source behave
identically and are modelled together; Python set iteration order only
affects which offending element is reported first. -/
def ensure_set_of_str_or_none : StrsArg → Option (Finset String) × String
  | .null => (none, "")
  | .str s => (some {s}, "")
  | .coll xs => ensureLoop xs ∅

/-- Argument shape of the jobs parameter per the /query schema: null, an
integer, a string, or a collection of integers and strings. -/
inductive JobsArg where
  | null
  | int (j : Int)
  | str (s : String)
  | coll (xs : List JVal)
deriving DecidableEq

/-- Loop of the jobs resolution (simulations.py lines 412-420): integers
join the id set directly, strings resolve through the alias service
jobids_with_name, anything else aborts with the unrecognised-type
message. -/
def resolveLoop (aliasFn : String → Finset Int) :
    List JVal → Finset Int → Option (Finset Int) × String
  | [], acc => (some acc, "")
  | .jint j :: rest, acc => resolveLoop aliasFn rest (insert j acc)
  | .jstr s :: rest, acc => resolveLoop aliasFn rest (acc ∪ aliasFn s)
  | v :: _, _ =>
    (none, "type of job not reconized: " ++ pyStrV v ++ " " ++ typeRepr v)

/-- Embedding of the jobs-argument handling of query (simulations.py
lines 402-420): null means the maximal set, which the source takes to be
the ids already collected from the selected statuses; a bare integer or
string becomes a singleton collection. -/
def resolveJobs (aliasFn : String → Finset Int) (sids : Finset Int) :
    JobsArg → Option (Finset Int) × String
  | .null => (some sids, "")
  | .int j => (some {j}, "")
  | .str s => resolveLoop aliasFn [.jstr s] ∅
  | .coll xs => resolveLoop aliasFn xs ∅

/-- State of the three status directories that query can actually reach:
STATUS_IDS has exactly the keys of QUEUE_STATUSES, and _load_job scans
the same names.  Entries are keyed by integer job id, i.e. this state
sits above the filename-parsing layer modelled by idsOfNames. -/
structure QFS where
  completed : List (Int × Jrec)
  canceled : List (Int × Jrec)
  running : List (Int × Jrec)
deriving DecidableEq

/-- Directory selection by status name, as ENV lookup of
FIXIE_STATUS_JOBS_DIR resolves it; names outside QUEUE_STATUSES have no
directory (query never reaches them because its statuses are
validated first). -/
def dirOf (fs : QFS) (s : String) : List (Int × Jrec) :=
  if s = "completed" then fs.completed
  else if s = "canceled" then fs.canceled
  else if s = "running" then fs.running
  else []

/-- First-match association lookup of a job id in a directory. -/
def lookupId (d : List (Int × Jrec)) (i : Int) : Option Jrec :=
  match d with
  | [] => none
  | (j, r) :: rest => if j = i then some r else lookupId rest i

/-- A generated status_ids enumeration at the id-keyed granularity: the
set of ids present in the directory of the given status. -/
def status_ids (fs : QFS) (s : String) : Finset Int :=
  ((dirOf fs s).map Prod.fst).toFinset

/-- Union of the id sets of the selected statuses, as the loop at lines
396-401 accumulates it.  The Python set iteration order is unspecified
and immaterial for a union; it is fixed here as the sorted order. -/
def unionIds (fs : QFS) (S : Finset String) : Finset Int :=
  (S.sort (· ≤ ·)).foldl (fun acc s => acc ∪ status_ids fs s) ∅

/-- The ids_to_status lookup built by the same loop: the last selected
status whose directory contains the id (last wins, as for a Python dict
update; under the disjointness invariant at most one status matches, so
the fixed iteration order is immaterial). -/
def hintOf (fs : QFS) (S : Finset String) (i : Int) : Option String :=
  ((S.sort (· ≤ ·)).filter (fun s => decide (i ∈ status_ids fs s))).getLast?

/-- Fallback scan of _load_job (simulations.py lines 350-357) over the
statuses of QUEUE_STATUSES, in the fixed listing order (the frozenset
iteration order is unspecified; the scan result is order-independent
under the disjointness invariant). -/
def scanStatuses (fs : QFS) (i : Int) : List String → Option (Jrec × String)
  | [] => none
  | s :: rest =>
    match lookupId (dirOf fs s) i with
    | some r => some (r, s)
    | none => scanStatuses fs i rest

/-- Embedding of _load_job (simulations.py lines 336-357): probe the
hinted status first, then fall back to scanning every status directory;
none models the final not-found outcome. -/
def load_job (fs : QFS) (i : Int) (hint : String) : Option (Jrec × String) :=
  match lookupId (dirOf fs hint) i with
  | some r => some (r, hint)
  | none => scanStatuses fs i QUEUE_STATUSES_LIST

/-- String value of a record field, if the field holds a string. -/
def fieldStr (rec : Jrec) (k : String) : Option String :=
  match lookupKey rec k with
  | some (.atom (.jstr v)) => some v
  | _ => none

/-- The user filter of the query loop (line 428): with a users set, the
record passes iff its user field value lies in the set.  A value of any
other shape is simply not a member; a record lacking the field would
raise KeyError in Python, and the theorems below restrict to well-formed
records. -/
def userOkB (u : Option (Finset String)) (rec : Jrec) : Bool :=
  match u with
  | none => true
  | some us =>
    match fieldStr rec "user" with
    | some v => decide (v ∈ us)
    | none => false

/-- The project filter of the query loop (line 430), same shape as the
user filter. -/
def projOkB (p : Option (Finset String)) (rec : Jrec) : Bool :=
  match p with
  | none => true
  | some ps =>
    match fieldStr rec "project" with
    | some v => decide (v ∈ ps)
    | none => false

/-- Body of the query loop (simulations.py lines 424-433) for one job
id: look the record up through the hint, apply the user and project
filters, and attach the status field naming the directory the record was
found in. -/
def queryRow (fs : QFS) (S : Finset String) (u p : Option (Finset String))
    (i : Int) : Option Jrec :=
  (hintOf fs S i).bind (fun hint =>
    match load_job fs i hint with
    | none => none
    | some (rec, st) =>
      if userOkB u rec then
        if projOkB p rec then some (setKey rec "status" (.atom (.jstr st)))
        else none
      else none)

/-- Embedding of query (simulations.py lines 360-434): normalise users
and projects, normalise statuses, collect candidate ids from the
selected status directories, resolve the jobs argument, then load and
filter the records of the sorted candidate ids. -/
def query (fs : QFS) (aliasFn : String → Finset Int) (statuses : StatusesArg)
    (users : StrsArg) (jobs : JobsArg) (projects : StrsArg) :
    Option (List Jrec) × Bool × String :=
  match ensure_set_of_str_or_none users with
  | (u, umsg) =>
    if umsg ≠ "" then (none, false, umsg)
    else
      match ensure_set_of_str_or_none projects with
      | (p, pmsg) =>
        if pmsg ≠ "" then (none, false, pmsg)
        else
          match convert_to_statuses_set statuses with
          | (none, smsg) => (none, false, smsg)
          | (some S, _) =>
            match resolveJobs aliasFn (unionIds fs S) jobs with
            | (none, jmsg) => (none, false, jmsg)
            | (some jids, _) =>
              (some ((((unionIds fs S) ∩ jids).sort (· ≤ ·)).filterMap
                (queryRow fs S u p)), true, "Jobs queried")

/-- Residence of a job id: the first status directory in the fixed
listing order holding the id, with its record.  Under the disjointness
invariant this is the unique directory holding the id. -/
def residence (fs : QFS) (i : Int) : Option (String × Jrec) :=
  match scanStatuses fs i QUEUE_STATUSES_LIST with
  | some (r, s) => some (s, r)
  | none => none

/-- String value of a field of the record a job id resides at. -/
def jobField (fs : QFS) (i : Int) (k : String) : Option String :=
  match residence fs i with
  | some (_, rec) => fieldStr rec k
  | none => none

/-- Transcription of the claim's selection predicate: the job's
directory status is among the selected statuses, its id lies in the
resolved jobs set, and its user and project pass the null-or-member
filters. -/
def specPred (fs : QFS) (S : Finset String) (u p : Option (Finset String))
    (jids : Finset Int) (i : Int) : Bool :=
  (match residence fs i with
   | some (s, _) => decide (s ∈ S)
   | none => false) &&
  decide (i ∈ jids) &&
  (match u with
   | none => true
   | some us =>
     match jobField fs i "user" with
     | some v => decide (v ∈ us)
     | none => false) &&
  (match p with
   | none => true
   | some ps =>
     match jobField fs i "project" with
     | some v => decide (v ∈ ps)
     | none => false)

/-- The output record the claim expects for a selected id: the residing
record carrying a status field that names the directory it was found
in. -/
def specRow (fs : QFS) (i : Int) : Jrec :=
  match residence fs i with
  | some (s, rec) => setKey rec "status" (.atom (.jstr s))
  | none => []

/-- Combined user-and-project pass of the query loop for an id, through
its residing record. -/
def rowPassB (fs : QFS) (u p : Option (Finset String)) (i : Int) : Bool :=
  match residence fs i with
  | some (_, rec) => userOkB u rec && projOkB p rec
  | none => false

/-- All ids present in any of the three reachable directories. -/
def allIds (fs : QFS) : Finset Int :=
  status_ids fs "completed" ∪ status_ids fs "canceled" ∪ status_ids fs "running"

/-- Pairwise disjointness of the status directories (the spec's
disjoint-residency invariant; hypothesis of the query theorem). -/
def disjointDirs (fs : QFS) : Prop :=
  status_ids fs "completed" ∩ status_ids fs "canceled" = ∅ ∧
  status_ids fs "completed" ∩ status_ids fs "running" = ∅ ∧
  status_ids fs "canceled" ∩ status_ids fs "running" = ∅

/-- A record owns a string-valued field. -/
def hasStrKey (r : Jrec) (k : String) : Bool :=
  match lookupKey r k with
  | some (.atom (.jstr _)) => true
  | _ => false

/-- Well-formedness of all stored records: string user and project
fields, so that the Python attribute reads in the filters cannot raise
KeyError (the embedding silently filters such records out; the theorem
restricts to states where both agree). -/
def recsWellFormed (fs : QFS) : Bool :=
  (fs.completed ++ fs.canceled ++ fs.running).all
    (fun pr => hasStrKey pr.2 "user" && hasStrKey pr.2 "project")

theorem mem_foldl_union (fs : QFS) (l : List String) (acc : Finset Int) (i : Int) :
    i ∈ l.foldl (fun a s => a ∪ status_ids fs s) acc ↔
      i ∈ acc ∨ ∃ s ∈ l, i ∈ status_ids fs s := by
  induction l generalizing acc with
  | nil => simp
  | cons hd tl ih =>
    rw [List.foldl_cons, ih]
    simp only [Finset.mem_union, List.mem_cons]
    constructor
    · rintro ((h | h) | ⟨s, hs1, hs2⟩)
      · exact Or.inl h
      · exact Or.inr ⟨hd, Or.inl rfl, h⟩
      · exact Or.inr ⟨s, Or.inr hs1, hs2⟩
    · rintro (h | ⟨s, hs1 | hs1, hs2⟩)
      · exact Or.inl (Or.inl h)
      · subst hs1
        exact Or.inl (Or.inr hs2)
      · exact Or.inr ⟨s, hs1, hs2⟩

theorem mem_unionIds (fs : QFS) (S : Finset String) (i : Int) :
    i ∈ unionIds fs S ↔ ∃ s ∈ S, i ∈ status_ids fs s := by
  unfold unionIds
  rw [mem_foldl_union]
  simp [Finset.mem_sort]

theorem lookupId_some_iff (d : List (Int × Jrec)) (i : Int) :
    (∃ r, lookupId d i = some r) ↔ i ∈ d.map Prod.fst := by
  induction d with
  | nil => simp [lookupId]
  | cons hd tl ih =>
    obtain ⟨j, r⟩ := hd
    by_cases h : j = i
    · subst h
      simp [lookupId]
    · have h2 : ¬ i = j := fun hh => h hh.symm
      simp [lookupId, h, ih, h2]

theorem mem_status_ids_iff (fs : QFS) (s : String) (i : Int) :
    i ∈ status_ids fs s ↔ ∃ r, lookupId (dirOf fs s) i = some r := by
  rw [status_ids, List.mem_toFinset]
  exact (lookupId_some_iff (dirOf fs s) i).symm

theorem lookupId_eq_none_iff (d : List (Int × Jrec)) (i : Int) :
    lookupId d i = none ↔ i ∉ d.map Prod.fst := by
  rw [← lookupId_some_iff]
  cases h : lookupId d i <;> simp [h]

theorem status_ids_empty_of_unknown (fs : QFS) (s : String)
    (h1 : s ≠ "completed") (h2 : s ≠ "canceled") (h3 : s ≠ "running") :
    status_ids fs s = ∅ := by
  simp [status_ids, dirOf, h1, h2, h3]

theorem mem_status_ids_known (fs : QFS) (s : String) (i : Int)
    (h : i ∈ status_ids fs s) :
    s = "completed" ∨ s = "canceled" ∨ s = "running" := by
  by_contra hc
  push_neg at hc
  rw [status_ids_empty_of_unknown fs s hc.1 hc.2.1 hc.2.2] at h
  exact absurd h (Finset.not_mem_empty i)

theorem residence_status_unique (fs : QFS) (hdisj : disjointDirs fs)
    (i : Int) (s t : String) (hs : i ∈ status_ids fs s)
    (ht : i ∈ status_ids fs t) : s = t := by
  obtain ⟨d1, d2, d3⟩ := hdisj
  rcases mem_status_ids_known fs s i hs with rfl | rfl | rfl <;>
    rcases mem_status_ids_known fs t i ht with rfl | rfl | rfl
  · rfl
  · have hm := Finset.mem_inter.mpr ⟨hs, ht⟩
    rw [d1] at hm
    exact absurd hm (Finset.not_mem_empty i)
  · have hm := Finset.mem_inter.mpr ⟨hs, ht⟩
    rw [d2] at hm
    exact absurd hm (Finset.not_mem_empty i)
  · have hm := Finset.mem_inter.mpr ⟨ht, hs⟩
    rw [d1] at hm
    exact absurd hm (Finset.not_mem_empty i)
  · rfl
  · have hm := Finset.mem_inter.mpr ⟨hs, ht⟩
    rw [d3] at hm
    exact absurd hm (Finset.not_mem_empty i)
  · have hm := Finset.mem_inter.mpr ⟨ht, hs⟩
    rw [d2] at hm
    exact absurd hm (Finset.not_mem_empty i)
  · have hm := Finset.mem_inter.mpr ⟨ht, hs⟩
    rw [d3] at hm
    exact absurd hm (Finset.not_mem_empty i)
  · rfl

theorem filter_eq_singleton_of_unique (l : List String) (hn : l.Nodup)
    (a : String) (ha : a ∈ l) (p : String → Bool)
    (hp : ∀ t ∈ l, (p t = true ↔ t = a)) :
    l.filter p = [a] := by
  induction l with
  | nil => cases ha
  | cons hd tl ih =>
    obtain ⟨hnmem, hntl⟩ := List.nodup_cons.mp hn
    rcases List.mem_cons.mp ha with h | h
    · rw [List.filter_cons_of_pos ((hp hd (by simp)).mpr h.symm)]
      have hnil : tl.filter p = [] := by
        rw [List.filter_eq_nil_iff]
        intro t ht hpt
        have hta := (hp t (by simp [ht])).mp hpt
        rw [hta, h] at ht
        exact hnmem ht
      rw [hnil, ← h]
    · have hhd : ¬ p hd = true := by
        intro hpt
        have hda := (hp hd (by simp)).mp hpt
        rw [← hda] at h
        exact hnmem h
      rw [List.filter_cons_of_neg hhd]
      exact ih hntl h (fun t ht => hp t (by simp [ht]))

theorem lookupId_none_of_other (fs : QFS) (hdisj : disjointDirs fs) (i : Int)
    (s0 : String) (hs0 : i ∈ status_ids fs s0) (t : String) (hne : t ≠ s0) :
    lookupId (dirOf fs t) i = none := by
  rw [lookupId_eq_none_iff]
  intro hm
  exact hne (residence_status_unique fs hdisj i t s0
    (List.mem_toFinset.mpr hm) hs0)

theorem residence_eq (fs : QFS) (hdisj : disjointDirs fs) (i : Int)
    (s0 : String) (rec0 : Jrec) (h0 : lookupId (dirOf fs s0) i = some rec0)
    (hs0 : i ∈ status_ids fs s0) :
    residence fs i = some (s0, rec0) := by
  rcases mem_status_ids_known fs s0 i hs0 with rfl | rfl | rfl
  · simp [residence, QUEUE_STATUSES_LIST, scanStatuses, h0]
  · have hc := lookupId_none_of_other fs hdisj i "canceled" hs0 "completed"
      (by decide)
    simp [residence, QUEUE_STATUSES_LIST, scanStatuses, hc, h0]
  · have hc := lookupId_none_of_other fs hdisj i "running" hs0 "completed"
      (by decide)
    have hc2 := lookupId_none_of_other fs hdisj i "running" hs0 "canceled"
      (by decide)
    simp [residence, QUEUE_STATUSES_LIST, scanStatuses, hc, hc2, h0]

theorem scanStatuses_inv (fs : QFS) (i : Int) (l : List String)
    (r : Jrec) (s : String) (h : scanStatuses fs i l = some (r, s)) :
    s ∈ l ∧ lookupId (dirOf fs s) i = some r := by
  induction l with
  | nil => cases h
  | cons hd tl ih =>
    rw [scanStatuses] at h
    cases hl : lookupId (dirOf fs hd) i with
    | some r2 =>
      rw [hl] at h
      obtain ⟨h1, h2⟩ := Prod.mk.injEq .. ▸ Option.some_injective _ h
      exact ⟨by simp [← h2], by rw [← h2, hl, h1]⟩
    | none =>
      rw [hl] at h
      obtain ⟨h1, h2⟩ := ih h
      exact ⟨by simp [h1], h2⟩

theorem residence_inv (fs : QFS) (i : Int) (s : String) (rec : Jrec)
    (h : residence fs i = some (s, rec)) :
    i ∈ status_ids fs s ∧ lookupId (dirOf fs s) i = some rec := by
  rw [residence] at h
  cases hscan : scanStatuses fs i QUEUE_STATUSES_LIST with
  | none => rw [hscan] at h; cases h
  | some pr =>
    obtain ⟨r2, s2⟩ := pr
    rw [hscan] at h
    obtain ⟨h1, h2⟩ := Prod.mk.injEq .. ▸ Option.some_injective _ h
    subst h1
    subst h2
    obtain ⟨hmem, hlook⟩ := scanStatuses_inv fs i QUEUE_STATUSES_LIST r2 s2 hscan
    refine ⟨(mem_status_ids_iff fs s2 i).mpr ⟨r2, hlook⟩, hlook⟩

theorem hintOf_eq (fs : QFS) (S : Finset String) (i : Int)
    (hdisj : disjointDirs fs) (s0 : String) (hs0S : s0 ∈ S)
    (hs0 : i ∈ status_ids fs s0) : hintOf fs S i = some s0 := by
  unfold hintOf
  rw [filter_eq_singleton_of_unique (S.sort (· ≤ ·)) (Finset.sort_nodup _ S)
    s0 ((Finset.mem_sort _).mpr hs0S) _ ?_]
  · rfl
  · intro t ht
    constructor
    · intro hpt
      exact residence_status_unique fs hdisj i t s0 (of_decide_eq_true hpt) hs0
    · rintro rfl
      exact decide_eq_true hs0

theorem queryRow_char (fs : QFS) (S : Finset String)
    (u p : Option (Finset String)) (i : Int) (hdisj : disjointDirs fs)
    (hi : i ∈ unionIds fs S) :
    ∃ s0 rec0, residence fs i = some (s0, rec0) ∧ s0 ∈ S ∧
      i ∈ status_ids fs s0 ∧
      queryRow fs S u p i =
        (if rowPassB fs u p i then some (specRow fs i) else none) := by
  obtain ⟨s1, hs1S, hs1⟩ := (mem_unionIds fs S i).mp hi
  obtain ⟨rec0, hrec0⟩ := (mem_status_ids_iff fs s1 i).mp hs1
  have hres : residence fs i = some (s1, rec0) :=
    residence_eq fs hdisj i s1 rec0 hrec0 hs1
  have hhint : hintOf fs S i = some s1 := hintOf_eq fs S i hdisj s1 hs1S hs1
  have hload : load_job fs i s1 = some (rec0, s1) := by
    unfold load_job
    rw [hrec0]
  refine ⟨s1, rec0, hres, hs1S, hs1, ?_⟩
  unfold queryRow rowPassB specRow
  rw [hhint, hres, Option.some_bind', hload]
  cases hub : userOkB u rec0 <;> cases hpb : projOkB p rec0 <;>
    simp [hub, hpb]

theorem filterMap_eq_map_filter (l : List Int) (f : Int → Option Jrec)
    (pb : Int → Bool) (g : Int → Jrec)
    (h : ∀ i ∈ l, f i = if pb i then some (g i) else none) :
    l.filterMap f = (l.filter pb).map g := by
  induction l with
  | nil => rfl
  | cons hd tl ih =>
    have hh := h hd (by simp)
    have htl := ih (fun i hi => h i (by simp [hi]))
    rw [List.filterMap_cons, List.filter_cons, hh]
    cases hb : pb hd <;> simp [hb, htl]

theorem sort_filter_comm (s : Finset Int) (pb : Int → Bool) :
    (s.sort (· ≤ ·)).filter pb =
      (s.filter (fun i => pb i = true)).sort (· ≤ ·) := by
  have hs1 : List.Sorted (· ≤ ·) ((s.sort (· ≤ ·)).filter pb) :=
    List.Pairwise.sublist (List.filter_sublist _) (Finset.sort_sorted (· ≤ ·) s)
  have hs2 : List.Sorted (· ≤ ·)
      ((s.filter (fun i => pb i = true)).sort (· ≤ ·)) :=
    Finset.sort_sorted (· ≤ ·) _
  have hperm : List.Perm ((s.sort (· ≤ ·)).filter pb)
      ((s.filter (fun i => pb i = true)).sort (· ≤ ·)) := by
    rw [List.perm_ext_iff_of_nodup
      (List.Nodup.sublist (List.filter_sublist _) (Finset.sort_nodup _ s))
      (Finset.sort_nodup _ _)]
    intro a
    rw [List.mem_filter, Finset.mem_sort, Finset.mem_sort, Finset.mem_filter]
  exact List.eq_of_perm_of_sorted hperm hs1 hs2

theorem specPred_eq_of_residence (fs : QFS) (S : Finset String)
    (u p : Option (Finset String)) (jids : Finset Int) (i : Int)
    (s0 : String) (rec0 : Jrec) (hres : residence fs i = some (s0, rec0)) :
    specPred fs S u p jids i =
      (decide (s0 ∈ S) && decide (i ∈ jids) &&
        userOkB u rec0 && projOkB p rec0) := by
  simp only [specPred, jobField, userOkB, projOkB, hres]

theorem specPred_false_of_no_residence (fs : QFS) (S : Finset String)
    (u p : Option (Finset String)) (jids : Finset Int) (i : Int)
    (hres : residence fs i = none) :
    specPred fs S u p jids i = false := by
  simp only [specPred, hres, Bool.false_and]

theorem selected_ids_eq (fs : QFS) (S : Finset String)
    (u p : Option (Finset String)) (jids : Finset Int)
    (hdisj : disjointDirs fs) :
    (unionIds fs S ∩ jids).filter (fun i => rowPassB fs u p i = true) =
      (allIds fs).filter (fun i => specPred fs S u p jids i = true) := by
  ext i
  simp only [Finset.mem_filter, Finset.mem_inter]
  constructor
  · rintro ⟨⟨hsids, hjids⟩, hpass⟩
    obtain ⟨s0, hs0S, hs0⟩ := (mem_unionIds fs S i).mp hsids
    obtain ⟨rec0, hrec0⟩ := (mem_status_ids_iff fs s0 i).mp hs0
    have hres := residence_eq fs hdisj i s0 rec0 hrec0 hs0
    have hall : i ∈ allIds fs := by
      rcases mem_status_ids_known fs s0 i hs0 with rfl | rfl | rfl
      · exact Finset.mem_union_left _ (Finset.mem_union_left _ hs0)
      · exact Finset.mem_union_left _ (Finset.mem_union_right _ hs0)
      · exact Finset.mem_union_right _ hs0
    refine ⟨hall, ?_⟩
    simp only [rowPassB, hres] at hpass
    rw [specPred_eq_of_residence fs S u p jids i s0 rec0 hres]
    simp only [Bool.and_eq_true] at hpass ⊢
    exact ⟨⟨⟨decide_eq_true hs0S, decide_eq_true hjids⟩, hpass.1⟩, hpass.2⟩
  · rintro ⟨hall, hpred⟩
    cases hres : residence fs i with
    | none =>
      rw [specPred_false_of_no_residence fs S u p jids i hres] at hpred
      cases hpred
    | some pr =>
      obtain ⟨s0, rec0⟩ := pr
      rw [specPred_eq_of_residence fs S u p jids i s0 rec0 hres] at hpred
      simp only [Bool.and_eq_true, decide_eq_true_eq] at hpred
      obtain ⟨⟨⟨hs0S, hjids⟩, hup⟩, hpp⟩ := hpred
      obtain ⟨hmem, hlook⟩ := residence_inv fs i s0 rec0 hres
      refine ⟨⟨(mem_unionIds fs S i).mpr ⟨s0, hs0S, hmem⟩, hjids⟩, ?_⟩
      simp only [rowPassB, hres, Bool.and_eq_true]
      exact ⟨hup, hpp⟩

/-- C6: for every valid filter combination (statuses passing the code's
normalisation, users and projects null or sets of strings, jobs null or
integers and names), over a static filesystem state with disjoint status
directories and well-formed records, query returns ok = true and exactly
the records whose directory status is selected, whose user passes the
null-or-member users filter, whose id lies in the resolved jobs set, and
whose project passes the projects filter, in ascending id order, each
carrying a status field naming the directory it was found in. -/
theorem query_filter_semantics
    (fs : QFS) (aliasFn : String → Finset Int) (statuses : StatusesArg)
    (users : StrsArg) (jobs : JobsArg) (projects : StrsArg)
    (S : Finset String) (u p : Option (Finset String)) (jids : Finset Int)
    (hdisj : disjointDirs fs) (_hwf : recsWellFormed fs = true)
    (hu : ensure_set_of_str_or_none users = (u, ""))
    (hp : ensure_set_of_str_or_none projects = (p, ""))
    (hS : convert_to_statuses_set statuses = (some S, ""))
    (hj : resolveJobs aliasFn (unionIds fs S) jobs = (some jids, "")) :
    query fs aliasFn statuses users jobs projects =
      (some ((((allIds fs).filter
          (fun i => specPred fs S u p jids i = true)).sort (· ≤ ·)).map
        (specRow fs)), true, "Jobs queried") := by
  unfold query
  rw [hu, hp, hS]
  dsimp only
  rw [if_neg (by simp), if_neg (by simp), hj]
  dsimp only
  refine congrArg (fun l => (some l, true, "Jobs queried")) ?_
  have hpoint : ∀ i ∈ ((unionIds fs S ∩ jids).sort (· ≤ ·)),
      queryRow fs S u p i =
        if rowPassB fs u p i then some (specRow fs i) else none := by
    intro i hi
    have hii : i ∈ unionIds fs S :=
      (Finset.mem_inter.mp ((Finset.mem_sort _).mp hi)).1
    obtain ⟨s0, rec0, hres, hs0S, hs0, hrow⟩ :=
      queryRow_char fs S u p i hdisj hii
    exact hrow
  rw [filterMap_eq_map_filter _ _ (fun i => rowPassB fs u p i) (specRow fs)
    hpoint, sort_filter_comm, selected_ids_eq fs S u p jids hdisj]

/-- A concrete record used by the query witness. -/
def recA : Jrec :=
  [("jobid", .atom (.jint 0)), ("user", .atom (.jstr "aperson")),
   ("project", .atom (.jstr "p0"))]

/-- A concrete record used by the query witness. -/
def recC : Jrec :=
  [("jobid", .atom (.jint 2)), ("user", .atom (.jstr "aperson")),
   ("project", .atom (.jstr "p2"))]

/-- A concrete record used by the query witness. -/
def recD : Jrec :=
  [("jobid", .atom (.jint 3)), ("user", .atom (.jstr "cperson")),
   ("project", .atom (.jstr "p0"))]

/-- A concrete three-directory state used by the query witness. -/
def fsW : QFS :=
  { completed := [(0, recA)], canceled := [(2, recC)], running := [(3, recD)] }

/-- Concrete instance of the query filter semantics: statuses "all",
users restricted to aperson, no jobs or projects constraint, over a
state holding one completed, one canceled and one running job. -/
theorem query_filter_semantics_witness :
    disjointDirs fsW ∧ recsWellFormed fsW = true ∧
      ensure_set_of_str_or_none (.str "aperson") = (some {"aperson"}, "") ∧
      ensure_set_of_str_or_none .null = (none, "") ∧
      convert_to_statuses_set (.str "all") = (some QUEUE_STATUSES, "") ∧
      resolveJobs (fun _ => ∅) (unionIds fsW QUEUE_STATUSES) .null =
        (some (unionIds fsW QUEUE_STATUSES), "") ∧
      query fsW (fun _ => ∅) (.str "all") (.str "aperson") .null .null =
        (some ((((allIds fsW).filter
            (fun i => specPred fsW QUEUE_STATUSES (some {"aperson"}) none
              (unionIds fsW QUEUE_STATUSES) i = true)).sort (· ≤ ·)).map
          (specRow fsW)), true, "Jobs queried") := by
  refine ⟨by unfold disjointDirs; decide, by decide, rfl, rfl, by decide,
    rfl, ?_⟩
  exact query_filter_semantics fsW (fun _ => ∅) (.str "all") (.str "aperson")
    .null .null QUEUE_STATUSES (some {"aperson"}) none
    (unionIds fsW QUEUE_STATUSES) (by unfold disjointDirs; decide) (by decide)
    rfl rfl (by decide) rfl

/-! ### Cancel (simulations.py lines 208-292) -/

/-- Result triple of the external verify_user service, in the order the
source unpacks it: valid flag, message, service status. -/
structure VerifyResult where
  valid : Bool
  msg : String
  status : Bool
deriving DecidableEq

/-- The job argument of cancel: an integer jobid or an alias name. -/
inductive JobArg where
  | int (j : Int)
  | str (s : String)
deriving DecidableEq

/-- State of the directories cancel touches, keyed by job id. -/
structure CancelFS where
  queued : List (Int × Jrec)
  running : List (Int × Jrec)
  canceled : List (Int × Jrec)
deriving DecidableEq

/-- Ids present in the queued directory, at the id-keyed layer: the
enumeration that SPAWN_XSH's script-local queued_ids (lines 26-30)
performs, and the value the unbound name at simulations.py line 238 was
meant to have.  The module-level queued_ids itself is never generated:
the loop at lines 202-205 ranges over QUEUE_STATUSES only (the C1
finding), so cancel's call to it raises NameError - see cancel below.
The filename layer of the enumeration is modelled by idsOfNames. -/
def queuedDirIds (fs : CancelFS) : Finset Int :=
  (fs.queued.map Prod.fst).toFinset

/-- Ids present in the running directory (the generated running_ids). -/
def running_ids (fs : CancelFS) : Finset Int :=
  (fs.running.map Prod.fst).toFinset

/-- Python set.pop() as cancel applies it to the resolved jobid set.
CPython pops the element in the first occupied hash slot; for the sets
arising in this development (fresh sets of distinct naturals below 8,
each hashing to its own slot) that is the smallest element.  Any other
realisable choice refutes C2 on the same inputs. -/
def setPop (s : Finset Int) : Int := (s.min).untop' 0

/-- Comma-join of the candidate ids in the too-many message (Python set
iteration order is unspecified; modelled as ascending). -/
def joinIds (s : Finset Int) : String :=
  String.intercalate ", " ((s.sort (· ≤ ·)).map toString)

/-- Rendering of the name slot of the too-many message: repr of the job
argument. -/
def reprJob : JobArg → String
  | .int j => toString j
  | .str s => pyReprStr s

/-- The too-many-jobids message of cancel (lines 248-252), with the
wording of the source preserved letter for letter. -/
def tooManyMsg (user project : String) (job : JobArg)
    (current : Finset Int) : String :=
  "Too many jobids found! " ++ user ++ " in project " ++ pyReprStr project ++
    " is has the folllowing jobids queued or running for " ++ reprJob job ++
    ": " ++ joinIds current

/-- Outcome of the candidate-resolution stage of cancel. -/
inductive CancelStep where
  | halt (t : Int × Bool × String)
  | proceed (jobid : Int)
deriving DecidableEq

/-- The jobid set the job argument resolves to (lines 241-244): the
alias lookup jobids_from_alias(user, job, project) for a name, the
singleton for an integer. -/
def resolveJobSet (aliasFn : String → String → String → Finset Int)
    (user project : String) : JobArg → Finset Int
  | .int j => {j}
  | .str s => aliasFn user s project

/-- Embedding of cancel's candidate resolution (lines 237-257):
intersect the resolved jobid set with the active (queued or running)
ids and branch on the cardinality.  On the singleton branch the source
pops from the full resolved set jobids, not from the intersection
current. -/
def cancelResolve (qids rids jobids : Finset Int) (user project : String)
    (job : JobArg) : CancelStep :=
  let current := jobids ∩ (qids ∪ rids)
  if 1 < current.card then
    .halt (-1, false, tooManyMsg user project job current)
  else if current.card = 0 then
    .halt (-1, false, "No running or queued job found")
  else
    .proceed (setPop jobids)

/-- Step one of the record patch of cancel (lines 279-280): set
queued_endtime to the current time when absent.  Note the source checks
and writes the key queued_endtime, not queue_endtime. -/
def patchQE (rec : Jrec) (now : Int) : Jrec :=
  if (lookupKey rec "queued_endtime").isSome then rec
  else setKey rec "queued_endtime" (.atom (.jint now))

/-- Step two of the record patch of cancel (lines 281-282): set
starttime to the current time when absent. -/
def patchST (rec : Jrec) (now : Int) : Jrec :=
  if (lookupKey rec "starttime").isSome then rec
  else setKey rec "starttime" (.atom (.jint now))

/-- The record patch of cancel (lines 279-288): the two conditional
time stamps, then returncode, endtime, out and err overwritten in the
order of the update dict literal. -/
def cancelPatch (rec : Jrec) (now : Int) : Jrec :=
  setKey (setKey (setKey (setKey (patchST (patchQE rec now) now)
    "returncode" (.atom (.jint 1))) "endtime" (.atom (.jint now)))
    "out" (.atom .jnull)) "err" (.atom (.jstr "Job was canceled externally"))

/-- Removal of the file of a job id from a directory (os.remove). -/
def removeId (d : List (Int × Jrec)) (i : Int) : List (Int × Jrec) :=
  match d with
  | [] => []
  | (j, r) :: rest => if j = i then rest else (j, r) :: removeId rest i

/-- Store of a record under a job id (open for writing overwrites an
existing file). -/
def writeId (d : List (Int × Jrec)) (i : Int) (r : Jrec) :
    List (Int × Jrec) :=
  match d with
  | [] => [(i, r)]
  | (j, r2) :: rest =>
    if j = i then (j, r) :: rest else (j, r2) :: writeId rest i r

/-- Continuation of cancel once the job file has been read (lines
274-292): authorise against the record's user (any value different from
the calling user fails, a missing field would raise KeyError, modelled
as none), send SIGTERM to the record's pid, remove the source file,
patch the record and write it into the canceled directory. -/
def cancelFound (fs : CancelFS) (jobid : Int) (user : String) (now : Int)
    (data : Jrec) (inQueued : Bool) :
    Option ((Int × Bool × String) × CancelFS × List Int) :=
  match lookupKey data "user" with
  | none => none
  | some v =>
    if v ≠ .atom (.jstr user) then
      some ((jobid, false, "User did not start job, cannot cancel it!"),
        fs, [])
    else
      match lookupKey data "pid" with
      | some (.atom (.jint pid)) =>
        let fs2 : CancelFS :=
          if inQueued then
            { fs with queued := removeId fs.queued jobid }
          else
            { fs with running := removeId fs.running jobid }
        let rec2 := cancelPatch data now
        some ((jobid, true, "Job canceled"),
          { fs2 with canceled := writeId fs2.canceled jobid rec2 }, [pid])
      | _ => none

/-- Embedding of cancel's file search and disposition (lines 258-292):
probe the queued directory then the running directory for the selected
jobid (the race-tolerant re-read loop of the source collapses in this
static model); the for-else exhaustion yields the not-found triple.
The result carries the returned triple, the directory state after the
call and the list of pids signalled; none models an uncaught Python
exception. -/
def cancelPhase2 (fs : CancelFS) (jobid : Int) (user : String) (now : Int) :
    Option ((Int × Bool × String) × CancelFS × List Int) :=
  match lookupId fs.queued jobid with
  | some data => cancelFound fs jobid user now data true
  | none =>
    match lookupId fs.running jobid with
    | some data => cancelFound fs jobid user now data false
    | none =>
      some ((-1, false, "Job file could not be cound in queue or running."),
        fs, [])

/-- Embedding of cancel (simulations.py lines 208-292).  aliasFn stands
for the external jobids_from_alias service, vr for the verify_user
result, now for the time.time() readings of this call.  The first
statement after user verification (line 238) evaluates the global name
queued_ids; the generation loop at lines 202-205 created a status_ids
enumeration for each member of QUEUE_STATUSES only, so that name is
bound exactly when "queued" is a member.  With the QUEUE_STATUSES of
this source it is not, and the call raises NameError, modelled as none;
the candidate resolution and the file phase below the raise are the
dead code of lines 238-292. -/
def cancel (fs : CancelFS) (aliasFn : String → String → String → Finset Int)
    (job : JobArg) (user : String) (vr : VerifyResult) (project : String)
    (now : Int) : Option ((Int × Bool × String) × CancelFS × List Int) :=
  if ¬ vr.status ∨ ¬ vr.valid then some ((-1, false, vr.msg), fs, [])
  else if "queued" ∉ QUEUE_STATUSES then none
  else
    match cancelResolve (queuedDirIds fs) (running_ids fs)
      (resolveJobSet aliasFn user project job) user project job with
    | .halt t => some (t, fs, [])
    | .proceed jobid => cancelPhase2 fs jobid user now

theorem lookupKey_patchQE_self (rec : Jrec) (now : Int) :
    lookupKey (patchQE rec now) "queued_endtime" =
      (match lookupKey rec "queued_endtime" with
       | some v => some v
       | none => some (.atom (.jint now))) := by
  cases hq : lookupKey rec "queued_endtime" <;>
    simp [patchQE, hq, lookupKey_setKey_self]

theorem lookupKey_patchQE_other (rec : Jrec) (now : Int) (k : String)
    (hk : k ≠ "queued_endtime") :
    lookupKey (patchQE rec now) k = lookupKey rec k := by
  cases hq : lookupKey rec "queued_endtime" <;>
    simp [patchQE, hq, lookupKey_setKey_other _ _ _ _ hk]

theorem lookupKey_patchST_self (rec : Jrec) (now : Int) :
    lookupKey (patchST rec now) "starttime" =
      (match lookupKey rec "starttime" with
       | some v => some v
       | none => some (.atom (.jint now))) := by
  cases hq : lookupKey rec "starttime" <;>
    simp [patchST, hq, lookupKey_setKey_self]

theorem lookupKey_patchST_other (rec : Jrec) (now : Int) (k : String)
    (hk : k ≠ "starttime") :
    lookupKey (patchST rec now) k = lookupKey rec k := by
  cases hq : lookupKey rec "starttime" <;>
    simp [patchST, hq, lookupKey_setKey_other _ _ _ _ hk]

theorem cancelPatch_fields (rec : Jrec) (now : Int) :
    lookupKey (cancelPatch rec now) "queued_endtime" =
      (match lookupKey rec "queued_endtime" with
       | some v => some v
       | none => some (.atom (.jint now))) ∧
    lookupKey (cancelPatch rec now) "starttime" =
      (match lookupKey rec "starttime" with
       | some v => some v
       | none => some (.atom (.jint now))) ∧
    lookupKey (cancelPatch rec now) "endtime" = some (.atom (.jint now)) ∧
    lookupKey (cancelPatch rec now) "returncode" = some (.atom (.jint 1)) ∧
    lookupKey (cancelPatch rec now) "out" = some (.atom .jnull) ∧
    lookupKey (cancelPatch rec now) "err" =
      some (.atom (.jstr "Job was canceled externally")) := by
  unfold cancelPatch
  refine ⟨?_, ?_, ?_, ?_, ?_, ?_⟩
  · rw [lookupKey_setKey_other _ _ _ _ (by decide),
      lookupKey_setKey_other _ _ _ _ (by decide),
      lookupKey_setKey_other _ _ _ _ (by decide),
      lookupKey_setKey_other _ _ _ _ (by decide),
      lookupKey_patchST_other _ _ _ (by decide), lookupKey_patchQE_self]
  · rw [lookupKey_setKey_other _ _ _ _ (by decide),
      lookupKey_setKey_other _ _ _ _ (by decide),
      lookupKey_setKey_other _ _ _ _ (by decide),
      lookupKey_setKey_other _ _ _ _ (by decide), lookupKey_patchST_self,
      lookupKey_patchQE_other _ _ _ (by decide)]
  · rw [lookupKey_setKey_other _ _ _ _ (by decide),
      lookupKey_setKey_other _ _ _ _ (by decide), lookupKey_setKey_self]
  · rw [lookupKey_setKey_other _ _ _ _ (by decide),
      lookupKey_setKey_other _ _ _ _ (by decide),
      lookupKey_setKey_other _ _ _ _ (by decide), lookupKey_setKey_self]
  · rw [lookupKey_setKey_other _ _ _ _ (by decide), lookupKey_setKey_self]
  · rw [lookupKey_setKey_self]

theorem lookupId_removeId_self (d : List (Int × Jrec)) (i : Int)
    (hnd : (d.map Prod.fst).Nodup) : lookupId (removeId d i) i = none := by
  induction d with
  | nil => rfl
  | cons hd tl ih =>
    obtain ⟨j, r⟩ := hd
    have hnd2 : (j :: tl.map Prod.fst).Nodup := by simpa using hnd
    obtain ⟨hj, htl⟩ := List.nodup_cons.mp hnd2
    by_cases h : j = i
    · subst h
      rw [removeId, if_pos rfl, lookupId_eq_none_iff]
      exact hj
    · rw [removeId, if_neg h, lookupId, if_neg h]
      exact ih htl

theorem lookupId_writeId_self (d : List (Int × Jrec)) (i : Int) (r : Jrec) :
    lookupId (writeId d i r) i = some r := by
  induction d with
  | nil => simp [writeId, lookupId]
  | cons hd tl ih =>
    obtain ⟨j, r2⟩ := hd
    by_cases h : j = i
    · rw [writeId, if_pos h, lookupId, if_pos h]
    · rw [writeId, if_neg h, lookupId, if_neg h]
      exact ih

/-- A concrete queued job record owned by user me with pid 7. -/
def recOwn : Jrec :=
  [("user", .atom (.jstr "me")), ("pid", .atom (.jint 7)),
   ("queue_starttime", .atom (.jint 1))]

/-- A concrete cancel-state with the single queued job 3. -/
def fsC : CancelFS := { queued := [(3, recOwn)], running := [], canceled := [] }

/-- A verify_user result that accepts. -/
def vrOk : VerifyResult := { valid := true, msg := "", status := true }

/-- An alias service with no aliases, used by concrete instances. -/
def aliasNone : String → String → String → Finset Int := fun _ _ _ => ∅

/-- C2: with a verified user, cancel never reaches candidate
resolution: line 238 evaluates the global name queued_ids, which the
generation loop (ranging over QUEUE_STATUSES) never created, so the
call raises NameError instead of producing any of the claimed triples.
At this input job 3 is queued and the alias resolves to jobids 2 and 3,
so the claimed candidate set is the singleton of 3; the dead resolution
code below the raise would moreover pop 2 from the full resolved set,
not the unique active candidate 3. -/
theorem cancel_resolution_name_error :
    "queued" ∉ QUEUE_STATUSES ∧
    cancel fsC (fun _ _ _ => ({2, 3} : Finset Int)) (.str "sim") "me" vrOk ""
        5 =
      none ∧
    (({2, 3} : Finset Int) ∩ (queuedDirIds fsC ∪ running_ids fsC) = {3}) ∧
    cancelResolve (queuedDirIds fsC) (running_ids fsC) ({2, 3} : Finset Int)
      "me" "" (.str "sim") = .proceed 2 := by
  exact ⟨by decide, by decide, by decide, by decide⟩

/-- C10: cancel raises NameError at line 238 before probing any
directory, so even for a selected jobid whose file is in neither the
queued nor the running directory (job 5 here) it never returns the
claimed not-found failure triple. -/
theorem cancel_not_found_name_error :
    lookupId fsC.queued 5 = none ∧
    lookupId fsC.running 5 = none ∧
    cancel fsC aliasNone (.int 5) "me" vrOk "" 9 = none := by
  exact ⟨by decide, by decide, by decide⟩

/-- C8: the ownership check at lines 275-276 is unreachable: a cancel
by the verified user bob of the queued job 3 owned by me raises
NameError at line 238, so the claimed (3, false, ownership message)
triple is never returned. -/
theorem cancel_ownership_name_error :
    lookupId fsC.queued 3 = some recOwn ∧
    lookupKey recOwn "user" = some (.atom (.jstr "me")) ∧
    cancel fsC aliasNone (.int 3) "bob" vrOk "" 5 = none := by
  exact ⟨by decide, by decide, by decide⟩

/-- C5: the removal step at lines 277-292 is unreachable: a cancel by
the owner of the queued job 3 raises NameError at line 238, so no file
is removed, no canceled record is written and (3, true, "Job canceled")
is never returned.  The patch of the dead removal code would moreover
write the field queued_endtime, not the queue_endtime the claim
names. -/
theorem cancel_removal_name_error :
    lookupId fsC.queued 3 = some recOwn ∧
    cancel fsC aliasNone (.int 3) "me" vrOk "" 5 = none ∧
    lookupKey (cancelPatch recOwn 5) "queued_endtime" =
      some (.atom (.jint 5)) ∧
    lookupKey (cancelPatch recOwn 5) "queue_endtime" = none := by
  exact ⟨by decide, by decide, by decide, by decide⟩

/-! ### Runner disposition (SPAWN_XSH lines 78-93) -/

/-- The five status directories of the runner script; the environment
layer guarantees pairwise distinct paths, modelled as distinct tags. -/
inductive StatusDir where
  | queued
  | running
  | completed
  | failed
  | canceled
deriving DecidableEq

/-- A filesystem operation the runner performs during a move, in the
order of the emitted list. -/
inductive FsOp where
  | removeFile (d : StatusDir) (jobid : Int)
  | writeFile (d : StatusDir) (jobid : Int) (rec : Jrec)
deriving DecidableEq

/-- Truthiness of the xonsh CommandPipeline object proc, which the
source routes the disposition through (line 90): true exactly when the
captured returncode is zero. -/
def procBool (returncode : Int) : Bool := returncode = 0

/-- Embedding of the runner's disposition step (SPAWN_XSH lines 82-93):
update the record with returncode, starttime, endtime, out and err in
the key order of the update dict literal, choose the target directory by
the truthiness of proc, then remove running/<jobid>.json and afterwards
write the record into the target directory - in that order. -/
def dispositionOps (jobid : Int) (job : Jrec) (returncode : Int)
    (starttime endtime : Int) (out err : PyTop) : Jrec × List FsOp :=
  let job2 := setKey (setKey (setKey (setKey (setKey job
    "returncode" (.atom (.jint returncode))) "starttime"
    (.atom (.jint starttime))) "endtime" (.atom (.jint endtime)))
    "out" out) "err" err
  let jobdir := if procBool returncode then StatusDir.completed
    else StatusDir.failed
  (job2, [.removeFile .running jobid, .writeFile jobdir jobid job2])

/-- C3 counterexample: at jobid 0 with a successful simulator the
runner's move list is not write-new-then-remove-old; the remove of
running/0.json comes first. -/
theorem disposition_order_counterexample :
    ¬ ((dispositionOps 0 [] 0 1 2 (.atom .jnull) (.atom (.jstr ""))).2 =
      [.writeFile .completed 0
         (dispositionOps 0 [] 0 1 2 (.atom .jnull) (.atom (.jstr ""))).1,
       .removeFile .running 0]) := by
  decide

/-- C3 (amended): the runner updates the record with returncode,
starttime, endtime, out and err, and writes the final record into the
completed directory exactly when the simulator's return code is 0 and
into failed otherwise; the move removes running/<jobid>.json first and
writes the new terminal file afterwards (remove-old-then-write-new). -/
theorem disposition_semantics (jobid : Int) (job : Jrec) (returncode : Int)
    (starttime endtime : Int) (out err : PyTop) :
    (dispositionOps jobid job returncode starttime endtime out err).2 =
      [.removeFile .running jobid,
       .writeFile (if returncode = 0 then .completed else .failed) jobid
         (dispositionOps jobid job returncode starttime endtime out err).1] ∧
    lookupKey (dispositionOps jobid job returncode starttime endtime out
      err).1 "returncode" = some (.atom (.jint returncode)) ∧
    lookupKey (dispositionOps jobid job returncode starttime endtime out
      err).1 "starttime" = some (.atom (.jint starttime)) ∧
    lookupKey (dispositionOps jobid job returncode starttime endtime out
      err).1 "endtime" = some (.atom (.jint endtime)) ∧
    lookupKey (dispositionOps jobid job returncode starttime endtime out
      err).1 "out" = some out ∧
    lookupKey (dispositionOps jobid job returncode starttime endtime out
      err).1 "err" = some err ∧
    (procBool returncode = true ↔ returncode = 0) := by
  refine ⟨?_, ?_, ?_, ?_, ?_, ?_, ?_⟩
  · by_cases h : returncode = 0 <;> simp [dispositionOps, procBool, h]
  · unfold dispositionOps
    dsimp only
    rw [lookupKey_setKey_other _ _ _ _ (by decide),
      lookupKey_setKey_other _ _ _ _ (by decide),
      lookupKey_setKey_other _ _ _ _ (by decide),
      lookupKey_setKey_other _ _ _ _ (by decide), lookupKey_setKey_self]
  · unfold dispositionOps
    dsimp only
    rw [lookupKey_setKey_other _ _ _ _ (by decide),
      lookupKey_setKey_other _ _ _ _ (by decide),
      lookupKey_setKey_other _ _ _ _ (by decide), lookupKey_setKey_self]
  · unfold dispositionOps
    dsimp only
    rw [lookupKey_setKey_other _ _ _ _ (by decide),
      lookupKey_setKey_other _ _ _ _ (by decide), lookupKey_setKey_self]
  · unfold dispositionOps
    dsimp only
    rw [lookupKey_setKey_other _ _ _ _ (by decide), lookupKey_setKey_self]
  · unfold dispositionOps
    dsimp only
    rw [lookupKey_setKey_self]
  · simp [procBool]

/-! ### Spawn (simulations.py lines 104-188) -/

/-- Python truthiness of a value, as the post and notify checks apply
it. -/
def pyTruthy : PyTop → Bool
  | .atom .jnull => false
  | .atom (.jbool b) => b
  | .atom (.jint n) => decide (n ≠ 0)
  | .atom (.jstr s) => decide (s ≠ "")
  | .list xs => decide (xs ≠ [])
  | .dict fl => decide (fl ≠ [])

/-- The collections.abc Mapping check on the simulation argument: only
dict-shaped values pass. -/
def isMapping : PyTop → Bool
  | .dict _ => true
  | _ => false

/-- External effects of a successful spawn, in order: jobid allocation
by next_jobid, detached launch of the rendered runner script, and the
optional alias registration. -/
inductive SpawnEffect where
  | alloc (jobid : Int)
  | launch (jobid : Int)
  | registerAlias (jobid : Int) (user name project : String)
deriving DecidableEq

/-- Embedding of spawn (simulations.py lines 104-188): the validation
checks in source order, each failing with (-1, False, reason) before any
effect; on success the jobid provided by the next_jobid service is
allocated, the runner is launched detached, and when a name or project
is given the alias is registered; the returned triple is (jobid, True,
"Simulation spawned").  return_pid only appends the child pid to the
success tuple and is not modelled separately. -/
def spawn (simulation permissions post notify : PyTop) (interactive : Bool)
    (user name project : String) (vr : VerifyResult) (jobid : Int) :
    (Int × Bool × String) × List SpawnEffect :=
  if ¬ isMapping simulation then
    ((-1, false, "Simulation must be dict (i.e. mapping object) currently."),
      [])
  else if permissions ≠ .atom (.jstr "public") then
    ((-1, false, "Non-public permissions are not supported yet."), [])
  else if pyTruthy post then
    ((-1, false, "Post-processing activities are not supported yet."), [])
  else if pyTruthy notify then
    ((-1, false, "Notifications are not supported yet."), [])
  else if interactive then
    ((-1, false, "Interactive simulation spawning is not supported yet."), [])
  else if ¬ vr.status ∨ ¬ vr.valid then
    ((-1, false, vr.msg), [])
  else
    ((jobid, true, "Simulation spawned"),
      [.alloc jobid, .launch jobid] ++
        (if name ≠ "" ∨ project ≠ "" then
          [.registerAlias jobid user name project] else []))

/-- C9: spawn checks its preconditions in source order - simulation is a
mapping, permissions equals public, post empty, notify empty,
interactive false, then the user verification - and an input failing one
of the checks yields (-1, false, the reason of the first failing check)
with no jobid allocation, no file write and no launched runner. -/
theorem spawn_precondition_order (simulation permissions post notify : PyTop)
    (interactive : Bool) (user name project : String) (vr : VerifyResult)
    (jobid : Int) :
    (isMapping simulation = false →
      spawn simulation permissions post notify interactive user name project
          vr jobid =
        ((-1, false,
          "Simulation must be dict (i.e. mapping object) currently."), [])) ∧
    (isMapping simulation = true → permissions ≠ .atom (.jstr "public") →
      spawn simulation permissions post notify interactive user name project
          vr jobid =
        ((-1, false, "Non-public permissions are not supported yet."), [])) ∧
    (isMapping simulation = true → permissions = .atom (.jstr "public") →
      pyTruthy post = true →
      spawn simulation permissions post notify interactive user name project
          vr jobid =
        ((-1, false, "Post-processing activities are not supported yet."),
          [])) ∧
    (isMapping simulation = true → permissions = .atom (.jstr "public") →
      pyTruthy post = false → pyTruthy notify = true →
      spawn simulation permissions post notify interactive user name project
          vr jobid =
        ((-1, false, "Notifications are not supported yet."), [])) ∧
    (isMapping simulation = true → permissions = .atom (.jstr "public") →
      pyTruthy post = false → pyTruthy notify = false →
      interactive = true →
      spawn simulation permissions post notify interactive user name project
          vr jobid =
        ((-1, false, "Interactive simulation spawning is not supported yet."),
          [])) ∧
    (isMapping simulation = true → permissions = .atom (.jstr "public") →
      pyTruthy post = false → pyTruthy notify = false →
      interactive = false → (vr.status = false ∨ vr.valid = false) →
      spawn simulation permissions post notify interactive user name project
          vr jobid = ((-1, false, vr.msg), [])) := by
  refine ⟨?_, ?_, ?_, ?_, ?_, ?_⟩
  · intro h1
    simp [spawn, h1]
  · intro h1 h2
    simp [spawn, h1, h2]
  · intro h1 h2 h3
    simp [spawn, h1, h2, h3]
  · intro h1 h2 h3 h4
    simp [spawn, h1, h2, h3, h4]
  · intro h1 h2 h3 h4 h5
    simp [spawn, h1, h2, h3, h4, h5]
  · intro h1 h2 h3 h4 h5 h6
    rcases h6 with h6 | h6 <;> simp [spawn, h1, h2, h3, h4, h5, h6]

/-- Concrete instance of the precondition order: a dict simulation with
public permissions, empty post and a non-empty notify list fails the
notify check with no effects. -/
theorem spawn_precondition_order_witness :
    isMapping (.dict []) = true ∧
    (.atom (.jstr "public") : PyTop) = .atom (.jstr "public") ∧
    pyTruthy (.list []) = false ∧
    pyTruthy (.list [.jstr "x"]) = true ∧
    spawn (.dict []) (.atom (.jstr "public")) (.list [])
        (.list [.jstr "x"]) false "me" "" "" vrOk 0 =
      ((-1, false, "Notifications are not supported yet."), []) := by
  refine ⟨rfl, rfl, rfl, by decide, ?_⟩
  exact (spawn_precondition_order (.dict []) (.atom (.jstr "public"))
    (.list []) (.list [.jstr "x"]) false "me" "" "" vrOk 0).2.2.2.1 rfl rfl
    rfl (by decide)
